import Mathlib

/-!
Verification of the Halifax transit backend (Express server, `server/index.js`)
against its natural-language specification.

The development shallowly embeds the server's data model and the operations
reachable from the claims: the GTFS static-index builders (`loadStaticData`),
the calendar test (`isServiceRunningToday`), the scheduled/realtime arrival
computations (`getScheduledArrivalsAtStop`, `getBusesArrivingAtStop`), the
merge (`mergeArrivals`), the vehicle-feed decoder (`loadVehiclePositions`) and
the three stop-arrival HTTP handlers.

Modelling conventions:
* JS strings are Lean `String`s; character-level work is done on `List Char`.
  `localeCompare` is modelled as code-unit lexicographic comparison, which
  agrees with it on the ASCII time labels the server produces.
* A JS `Date` is modelled as seconds since the Unix epoch (`JSDate`), with the
  local timezone taken to be UTC (a fixed offset; all claims are offset
  independent).  Sub-second precision is dropped: every `Date` the server
  builds or compares is whole-second.
* `undefined`/`null` are modelled as `Option.none`; `Map` is an association
  list with JS `Map` insertion-order semantics (`mapSet`, `mapGet`, `mapHas`).
* `Number`, `Number.parseInt` and `Number.parseFloat` are modelled on the
  inputs the server feeds them (whitespace-trimmed CSV fields): an optional
  sign followed by digits (and a fractional part for `parseFloat`); `Number`
  maps the empty string to 0, the others to NaN (`none`).
* `Array.prototype.sort` is modelled as a stable insertion sort (`jsSort`);
  JS's sort is required to be stable, and every comparator used by the server
  is a total preorder on the values it is applied to.
-/

/-- Splits a character list at a separator, like JS `String.prototype.split`
with a single-character separator: `"a:b:".split(':') = ["a","b",""]`. -/
def splitOnChar (sep : Char) : List Char → List (List Char)
  | [] => [[]]
  | c :: cs =>
    let rest := splitOnChar sep cs
    if c = sep then [] :: rest
    else
      match rest with
      | [] => [[c]]
      | r :: rs => (c :: r) :: rs

/-- Value of a nonempty all-digit character list; `none` otherwise. -/
def charsDigitsToNat : List Char → Option Nat
  | [] => none
  | cs =>
    if cs.all (fun c => c.isDigit) then
      some (cs.foldl (fun n c => n * 10 + (c.toNat - 48)) 0)
    else none

/-- Models JS `Number()` on the server's inputs: `""` is 0, an optional sign
followed by digits is the signed value, anything else is NaN (`none`). -/
def jsNumberChars : List Char → Option Int
  | [] => some 0
  | '-' :: rest => (charsDigitsToNat rest).map (fun n => -(n : Int))
  | '+' :: rest => (charsDigitsToNat rest).map (fun n => (n : Int))
  | cs => (charsDigitsToNat cs).map (fun n => (n : Int))

/-- Models JS `Number.parseInt(s, 10)` on trimmed input: an optional sign, then
the longest leading digit run; NaN (`none`) when that run is empty. -/
def parseIntChars : List Char → Option Int
  | '-' :: rest =>
    (charsDigitsToNat (rest.takeWhile (fun c => c.isDigit))).map (fun n => -(n : Int))
  | '+' :: rest =>
    (charsDigitsToNat (rest.takeWhile (fun c => c.isDigit))).map (fun n => (n : Int))
  | cs => (charsDigitsToNat (cs.takeWhile (fun c => c.isDigit))).map (fun n => (n : Int))

/-- A finite JS float written in decimal, kept exactly as the value
`num / 10 ^ scale`.  The server only carries coordinate floats through to its
JSON output and never computes with them, so this exact (non-normalised)
representation is observationally adequate. -/
structure JsDec where
  num : Int
  scale : Nat
deriving DecidableEq, Repr

/-- Models JS `Number.parseFloat` on trimmed input: an optional sign, then
digits with an optional fractional part (one of the two digit runs may be
empty, but not both); NaN (`none`) otherwise. -/
def parseFloatChars : List Char → Option JsDec :=
  fun cs =>
    match cs with
    | '-' :: rest => (core rest).map (fun q => ⟨-q.num, q.scale⟩)
    | '+' :: rest => core rest
    | _ => core cs
where
  digitsVal (ds : List Char) : Nat :=
    ds.foldl (fun n c => n * 10 + (c.toNat - 48)) 0
  core (cs : List Char) : Option JsDec :=
    let intPart := cs.takeWhile (fun c => c.isDigit)
    let rest := cs.dropWhile (fun c => c.isDigit)
    match rest with
    | '.' :: rest2 =>
      let fracPart := rest2.takeWhile (fun c => c.isDigit)
      if intPart = [] ∧ fracPart = [] then none
      else
        some ⟨(digitsVal intPart * 10 ^ fracPart.length + digitsVal fracPart : Nat),
              fracPart.length⟩
    | _ => if intPart = [] then none else some ⟨(digitsVal intPart : Nat), 0⟩

/-- Strict code-unit lexicographic order on character lists; on the ASCII
strings compared by the server this is exactly `a.localeCompare(b) < 0`. -/
def lexLtChars : List Char → List Char → Bool
  | [], [] => false
  | [], _ :: _ => true
  | _ :: _, [] => false
  | a :: as, b :: bs =>
    if a.toNat < b.toNat then true
    else if b.toNat < a.toNat then false
    else lexLtChars as bs

/-- `a.localeCompare(b) < 0` on the server's ASCII strings. -/
def lexLt (a b : String) : Bool := lexLtChars a.toList b.toList

/-- `a.localeCompare(b) <= 0` on the server's ASCII strings. -/
def lexLe (a b : String) : Bool := !(lexLtChars b.toList a.toList)

/-- Models `String(n).padStart(2, '0')` for the values the server formats
(hour/minute fields, always `0 ≤ n < 100`). -/
def padTwo (n : Nat) : String :=
  String.mk [Char.ofNat (48 + n / 10 % 10), Char.ofNat (48 + n % 10)]

/-- Stable insertion step: places `a` before the first element `b` of the
already-sorted list with `le a b`. -/
def jsSortInsert (le : α → α → Bool) (a : α) : List α → List α
  | [] => [a]
  | b :: bs => if le a b then a :: b :: bs else b :: jsSortInsert le a bs

/-- Models `Array.prototype.sort(cmp)` for the server's comparators, as the
stable sort by the total preorder `le a b ↔ cmp(a,b) ≤ 0`. -/
def jsSort (le : α → α → Bool) : List α → List α
  | [] => []
  | a :: as => jsSortInsert le a (jsSort le as)

/-- A JS `Date` instant, at whole-second precision, with the process-local
timezone modelled as UTC. -/
structure JSDate where
  epochSec : Int
deriving DecidableEq, Repr

/-- Days from the civil epoch 1970-01-01 for a civil date (y, m, d), m in
1..12; the standard days-from-civil computation, matching what JS
`new Date(year, monthIndex, day)` denotes at local midnight. -/
def daysFromCivil (y m d : Int) : Int :=
  let y2 := if m ≤ 2 then y - 1 else y
  let era := (if 0 ≤ y2 then y2 else y2 - 399).tdiv 400
  let yoe := y2 - era * 400
  let mp := if 2 < m then m - 3 else m + 9
  let doy := (153 * mp + 2).tdiv 5 + d - 1
  let doe := yoe * 365 + yoe.tdiv 4 - yoe.tdiv 100 + doy
  era * 146097 + doe - 719468

/-- Models `new Date(y, monthIndex, d)` (local midnight), including the
two-digit-year quirk and month rollover. -/
def jsMakeDate (y monthIndex d : Int) : JSDate :=
  let y2 := if 0 ≤ y ∧ y ≤ 99 then y + 1900 else y
  let y3 := y2 + monthIndex.fdiv 12
  let m := monthIndex.emod 12
  ⟨daysFromCivil y3 (m + 1) d * 86400⟩

/-- Models `new Date(y, monthIndex, d, hours, minutes, seconds)`; used to
write concrete instants in the tests below. -/
def jsMakeDateTime (y monthIndex d hours minutes seconds : Int) : JSDate :=
  ⟨(jsMakeDate y monthIndex d).epochSec + hours * 3600 + minutes * 60 + seconds⟩

/-- Models `Date.prototype.getHours` (local = UTC). -/
def jsGetHours (t : JSDate) : Nat := (t.epochSec.emod 86400).toNat / 3600

/-- Models `Date.prototype.getMinutes`. -/
def jsGetMinutes (t : JSDate) : Nat := (t.epochSec.emod 86400).toNat % 3600 / 60

/-- Models `Date.prototype.getSeconds`. -/
def jsGetSeconds (t : JSDate) : Nat := (t.epochSec.emod 86400).toNat % 60

/-- Models `Date.prototype.getDay` (0 = Sunday .. 6 = Saturday); epoch day 0
was a Thursday. -/
def jsGetDay (t : JSDate) : Nat := ((t.epochSec.fdiv 86400 + 4).emod 7).toNat

/-- Models `a < b` on JS `Date`s where `b` may be an Invalid Date (`none`):
any comparison against an Invalid Date is false. -/
def jsDateBefore (a : JSDate) (b : Option JSDate) : Bool :=
  match b with
  | some b => decide (a.epochSec < b.epochSec)
  | none => false

/-- Models `a > b` on JS `Date`s where `b` may be an Invalid Date (`none`). -/
def jsDateAfter (a : JSDate) (b : Option JSDate) : Bool :=
  match b with
  | some b => decide (b.epochSec < a.epochSec)
  | none => false

/-- Association list with JS `Map` semantics: unique keys, insertion order. -/
def mapHas (m : List (String × β)) (k : String) : Bool :=
  m.any (fun p => p.1 = k)

/-- JS `Map.prototype.get`; `none` models `undefined`. -/
def mapGet (m : List (String × β)) (k : String) : Option β :=
  (m.find? (fun p => p.1 = k)).map Prod.snd

/-- JS `Map.prototype.set`: overwrites in place when the key exists (keeping
its position), appends otherwise. -/
def mapSet (m : List (String × β)) (k : String) (v : β) : List (String × β) :=
  if mapHas m k then m.map (fun p => if p.1 = k then (k, v) else p)
  else m ++ [(k, v)]

/-- A raw `routes.txt` CSV row (`csv-parse` with `columns: true, trim: true`):
required GTFS key columns are modelled as present strings, the rest as
possibly-absent strings. -/
structure RawRoute where
  route_id : String
  route_short_name : Option String
  route_long_name : Option String
  route_desc : Option String
  route_type : Option String
  route_color : Option String
deriving DecidableEq, Repr

/-- A raw `trips.txt` CSV row. -/
structure RawTrip where
  route_id : String
  service_id : String
  trip_id : String
  trip_headsign : Option String
  direction_id : Option String
  shape_id : Option String
deriving DecidableEq, Repr

/-- A raw `stops.txt` CSV row. -/
structure RawStop where
  stop_id : String
  stop_name : Option String
  stop_lat : Option String
  stop_lon : Option String
deriving DecidableEq, Repr

/-- A raw `shapes.txt` CSV row. -/
structure RawShape where
  shape_id : String
  shape_pt_lat : Option String
  shape_pt_lon : Option String
  shape_pt_sequence : Option String
deriving DecidableEq, Repr

/-- A raw `stop_times.txt` CSV row. -/
structure RawStopTime where
  trip_id : String
  stop_id : String
  arrival_time : Option String
  departure_time : Option String
  stop_sequence : Option String
deriving DecidableEq, Repr

/-- A raw `calendar.txt` CSV row. -/
structure RawCalendar where
  service_id : String
  monday : Option String
  tuesday : Option String
  wednesday : Option String
  thursday : Option String
  friday : Option String
  saturday : Option String
  sunday : Option String
  start_date : String
  end_date : String
deriving DecidableEq, Repr

/-- `parseIntSafe`: null for blank or invalid strings, the parsed integer
otherwise. -/
def parseIntSafe (value : Option String) : Option Int :=
  match value with
  | none => none
  | some s => if s = "" then none else parseIntChars s.toList

/-- `parseFloatSafe`: null when the input is not a finite number. -/
def parseFloatSafe (value : Option String) : Option JsDec :=
  match value with
  | none => none
  | some s => parseFloatChars s.toList

/-- The module-level `timeToSeconds` used at load time: null for a falsy
value, for fewer than two `:`-separated parts, or for a NaN part; otherwise
`hours*3600 + minutes*60 + seconds` with the seconds part defaulting to 0. -/
def timeToSeconds (value : Option String) : Option Int :=
  match value with
  | none => none
  | some s =>
    if s = "" then none
    else
      let parts := (splitOnChar ':' s.toList).map parseIntChars
      if parts.length < 2 ∨ parts.any (fun p => p.isNone) then none
      else
        let hours := (parts.headD none).getD 0
        let minutes := ((parts.get? 1).getD none).getD 0
        let seconds := ((parts.get? 2).getD none).getD 0
        some (hours * 3600 + minutes * 60 + seconds)

/-- `formatScheduleLabel`: `""` for a falsy input, otherwise
`pad2(parseInt(hours) % 24) ++ ":" ++ (minutes ?? "00")`.  The `%` and the
padding are modelled on the nonnegative hour values the schedule contains. -/
def formatScheduleLabel (timeString : String) : String :=
  if timeString = "" then ""
  else
    let parts := splitOnChar ':' timeString.toList
    let minutesPart :=
      match parts.get? 1 with
      | some m => String.mk m
      | none => "00"
    let hourStr :=
      match parseIntChars (parts.headD []) with
      | some h => padTwo (h.tmod 24).toNat
      | none => "NaN"
    hourStr ++ ":" ++ minutesPart

/-- `formatHHMM` on the valid dates the realtime path constructs: the zero
padded local `"HH:MM"` label (`toLocaleTimeString('en-CA', hour12: false)`). -/
def formatHHMM (d : JSDate) : String :=
  padTwo (jsGetHours d) ++ ":" ++ padTwo (jsGetMinutes d)

/-- A mapped route record, as placed in `routes` / `routesById`. -/
structure RouteRec where
  route_id : String
  route_short_name : Option String
  route_long_name : Option String
  route_desc : Option String
  route_type : Option Int
  route_color : Option String
deriving DecidableEq, Repr

/-- A mapped trip record, as placed in `trips` / `staticTripsById`. -/
structure TripRec where
  route_id : String
  service_id : String
  trip_id : String
  trip_headsign : Option String
  direction_id : Option Int
  shape_id : Option String
deriving DecidableEq, Repr

/-- A mapped stop record. -/
structure StopRec where
  stop_id : String
  stop_name : Option String
  stop_lat : Option JsDec
  stop_lon : Option JsDec
deriving DecidableEq, Repr

/-- A shape point, as stored in `shapesById`. -/
structure ShapePoint where
  shape_pt_lat : JsDec
  shape_pt_lon : JsDec
  shape_pt_sequence : Int
deriving DecidableEq, Repr

/-- A stop-time entry, as stored in `stopSchedulesByStopId`. -/
structure ScheduleEntry where
  tripId : String
  arrivalTime : String
  arrivalLabel : String
  arrivalSeconds : Int
  stopSequence : Int
deriving DecidableEq, Repr

/-- A calendar entry, as stored in `calendarByServiceId`; `none` dates model
Invalid Dates produced by `parseYyyyMmDd` on malformed input. -/
structure CalendarService where
  monday : Bool
  tuesday : Bool
  wednesday : Bool
  thursday : Bool
  friday : Bool
  saturday : Bool
  sunday : Bool
  startDate : Option JSDate
  endDate : Option JSDate
deriving DecidableEq, Repr

/-- The per-row mapping for routes inside `loadStaticData`. -/
def mkRouteRec (route : RawRoute) : RouteRec :=
  { route_id := route.route_id
    route_short_name := route.route_short_name
    route_long_name := route.route_long_name
    route_desc := route.route_desc
    route_type := parseIntSafe route.route_type
    route_color := route.route_color }

/-- The per-row mapping for trips inside `loadStaticData`. -/
def mkTripRec (trip : RawTrip) : TripRec :=
  { route_id := trip.route_id
    service_id := trip.service_id
    trip_id := trip.trip_id
    trip_headsign := trip.trip_headsign
    direction_id := parseIntSafe trip.direction_id
    shape_id := trip.shape_id }

/-- The per-row mapping for stops inside `loadStaticData`. -/
def mkStopRec (stop : RawStop) : StopRec :=
  { stop_id := stop.stop_id
    stop_name := stop.stop_name
    stop_lat := parseFloatSafe stop.stop_lat
    stop_lon := parseFloatSafe stop.stop_lon }

/-- `parseYyyyMmDd`: `Number` on the three `slice`s of the string, then
`new Date(y, m - 1, d)`; `none` models the Invalid Date produced when a slice
is NaN. -/
def parseYyyyMmDd (str : String) : Option JSDate :=
  let cs := str.toList
  match jsNumberChars (cs.take 4), jsNumberChars ((cs.drop 4).take 2),
      jsNumberChars ((cs.drop 6).take 2) with
  | some y, some m, some d => some (jsMakeDate y (m - 1) d)
  | _, _, _ => none

/-- The `shapesById` construction in `loadStaticData`: group rows by
`shape_id` (skipping falsy ids and rows with unparsable coordinates,
defaulting a missing sequence to 0), then sort each group by sequence. -/
def buildShapesById (rows : List RawShape) : List (String × List ShapePoint) :=
  let grouped := rows.foldl
    (fun m shape =>
      if shape.shape_id = "" then m
      else
        match parseFloatSafe shape.shape_pt_lat, parseFloatSafe shape.shape_pt_lon with
        | some latitude, some longitude =>
          let sequence := (parseIntSafe shape.shape_pt_sequence).getD 0
          let points := (mapGet m shape.shape_id).getD []
          mapSet m shape.shape_id
            (points ++ [{ shape_pt_lat := latitude, shape_pt_lon := longitude,
                          shape_pt_sequence := sequence }])
        | _, _ => m)
    []
  grouped.map (fun p =>
    (p.1, jsSort (fun a b => decide (a.shape_pt_sequence ≤ b.shape_pt_sequence)) p.2))

/-- The `stopSchedulesByStopId` construction in `loadStaticData`: group
stop-time rows by stop (skipping falsy ids, falsy times and unparsable times,
defaulting a missing stop sequence to 0), then sort each group by seconds. -/
def buildStopSchedules (rows : List RawStopTime) : List (String × List ScheduleEntry) :=
  let grouped := rows.foldl
    (fun m stopTime =>
      if stopTime.stop_id = "" ∨ stopTime.trip_id = "" then m
      else
        let arrivalTime :=
          match stopTime.arrival_time with
          | some t => if t = "" then stopTime.departure_time else some t
          | none => stopTime.departure_time
        match arrivalTime with
        | none => m
        | some t =>
          if t = "" then m
          else
            match timeToSeconds (some t) with
            | none => m
            | some arrivalSeconds =>
              let stopSequence := (parseIntSafe stopTime.stop_sequence).getD 0
              let entry : ScheduleEntry :=
                { tripId := stopTime.trip_id
                  arrivalTime := t
                  arrivalLabel := formatScheduleLabel t
                  arrivalSeconds := arrivalSeconds
                  stopSequence := stopSequence }
              let list := (mapGet m stopTime.stop_id).getD []
              mapSet m stopTime.stop_id (list ++ [entry]))
    []
  grouped.map (fun p =>
    (p.1, jsSort (fun a b => decide (a.arrivalSeconds ≤ b.arrivalSeconds)) p.2))

/-- The `calendarByServiceId` construction in `loadStaticData`: one entry per
service id (skipping falsy ids), weekday flags true exactly on the literal
string `"1"`, dates via `parseYyyyMmDd`. -/
def buildCalendar (rows : List RawCalendar) : List (String × CalendarService) :=
  rows.foldl
    (fun m row =>
      if row.service_id = "" then m
      else
        mapSet m row.service_id
          { monday := row.monday = some "1"
            tuesday := row.tuesday = some "1"
            wednesday := row.wednesday = some "1"
            thursday := row.thursday = some "1"
            friday := row.friday = some "1"
            saturday := row.saturday = some "1"
            sunday := row.sunday = some "1"
            startDate := parseYyyyMmDd row.start_date
            endDate := parseYyyyMmDd row.end_date })
    []

/-- The process-wide static state produced by `loadStaticData` and read by the
request handlers. -/
structure StaticData where
  routes : List RouteRec
  stops : List StopRec
  trips : List TripRec
  shapesById : List (String × List ShapePoint)
  stopSchedulesByStopId : List (String × List ScheduleEntry)
  routesById : List (String × RouteRec)
  staticTripsById : List (String × TripRec)
  calendarByServiceId : List (String × CalendarService)
deriving DecidableEq, Repr

/-- The pure core of `loadStaticData`: builds every index from the parsed CSV
tables (the zip/CSV byte handling is outside the model). -/
def loadStaticData (routesRaw : List RawRoute) (stopsRaw : List RawStop)
    (tripsRaw : List RawTrip) (shapesRaw : List RawShape)
    (stopTimesRaw : List RawStopTime) (calendarRaw : List RawCalendar) :
    StaticData :=
  let routes := routesRaw.map mkRouteRec
  let trips := tripsRaw.map mkTripRec
  { routes := routes
    stops := stopsRaw.map mkStopRec
    trips := trips
    shapesById := buildShapesById shapesRaw
    stopSchedulesByStopId := buildStopSchedules stopTimesRaw
    routesById := routes.foldl (fun m route => mapSet m route.route_id route) []
    staticTripsById := trips.foldl (fun m trip => mapSet m trip.trip_id trip) []
    calendarByServiceId := buildCalendar calendarRaw }

/-- The weekday flag selected by `weekdayKeys[getDay()]`
(`['sunday','monday',...,'saturday']`). -/
def weekdayFlag (service : CalendarService) : Nat → Bool
  | 0 => service.sunday
  | 1 => service.monday
  | 2 => service.tuesday
  | 3 => service.wednesday
  | 4 => service.thursday
  | 5 => service.friday
  | 6 => service.saturday
  | _ => false

/-- `isServiceRunningToday(serviceId, today = new Date())`: false when the
service has no calendar entry, when today's weekday flag is unset, or when
`today` lies strictly before `startDate` or strictly after `endDate` (Date
comparisons at millisecond precision; comparisons against an Invalid Date are
false). -/
def isServiceRunningToday (calendarByServiceId : List (String × CalendarService))
    (serviceId : String) (today : JSDate) : Bool :=
  match mapGet calendarByServiceId serviceId with
  | none => false
  | some service =>
    if !(weekdayFlag service (jsGetDay today)) then false
    else if jsDateBefore today service.startDate then false
    else if jsDateAfter today service.endDate then false
    else true

/-- `getHours()*3600 + getMinutes()*60 + getSeconds()` of a date, as computed
by both stop-arrival handlers. -/
def secondsSinceMidnightOf (t : JSDate) : Int :=
  (jsGetHours t : Int) * 3600 + (jsGetMinutes t : Int) * 60 + (jsGetSeconds t : Int)

/-- The local `timeToSeconds` helper shared by `getScheduledArrivalsAtStop`
and the static stop-arrivals handler: `t.split(':').map(Number)` destructured
into `[h, m, s]` and summed; `none` models a NaN result (any NaN part, or a
missing third part). -/
def timeToSecondsLocal (t : String) : Option Int :=
  let parts := (splitOnChar ':' t.toList).map jsNumberChars
  match parts.get? 0, parts.get? 1, parts.get? 2 with
  | some (some h), some (some m), some (some s) => some (h * 3600 + m * 60 + s)
  | _, _, _ => none

/-- A derived arrival as placed in the JSON responses; realtime and scheduled
arrivals share this shape. -/
structure Arrival where
  tripId : String
  arrivalTime : String
  arrivalLabel : Option String
  stopSequence : Option Int
  routeId : Option String
  routeShortName : Option String
  routeLongName : Option String
  headsign : Option String
  dataSource : String
deriving DecidableEq, Repr

/-- The entry-to-Arrival mapping shared (as duplicated code) by
`getScheduledArrivalsAtStop` and the static stop-arrivals handler. -/
def scheduledArrivalOfEntry (st : StaticData) (entry : ScheduleEntry) : Arrival :=
  let trip := mapGet st.staticTripsById entry.tripId
  let route :=
    match trip with
    | some t => if t.route_id = "" then none else mapGet st.routesById t.route_id
    | none => none
  { tripId := entry.tripId
    arrivalTime := entry.arrivalTime
    arrivalLabel := some entry.arrivalLabel
    stopSequence := some entry.stopSequence
    routeId := trip.map (fun t => t.route_id)
    routeShortName := route.bind (fun r => r.route_short_name)
    routeLongName := route.bind (fun r => r.route_long_name)
    headsign := trip.bind (fun t => t.trip_headsign)
    dataSource := "Scheduled" }

/-- The time filter `timeToSeconds(entry.arrivalTime) >= secondsSinceMidnight`
(false when the left side is NaN). -/
def entryTimeAtLeast (ssm : Int) (entry : ScheduleEntry) : Bool :=
  match timeToSecondsLocal entry.arrivalTime with
  | some v => decide (ssm ≤ v)
  | none => false

/-- The calendar filter `trip && isServiceRunningToday(trip.service_id)`; the
`today` argument models the `new Date()` default inside
`isServiceRunningToday`, i.e. the wall clock at evaluation time. -/
def entryServiceRunning (st : StaticData) (today : JSDate) (entry : ScheduleEntry) :
    Bool :=
  match mapGet st.staticTripsById entry.tripId with
  | some trip => isServiceRunningToday st.calendarByServiceId trip.service_id today
  | none => false

/-- `getScheduledArrivalsAtStop(stopId, time)`: the stop's prebuilt schedule,
filtered to entries at or after `time`'s seconds-since-midnight, filtered by
the calendar test (evaluated at the wall clock `now`, not at `time`), and
mapped to Arrivals — with no sorting step and no truncation. -/
def getScheduledArrivalsAtStop (st : StaticData) (stopId : String)
    (time : JSDate) (now : JSDate) : List Arrival :=
  let schedule := (mapGet st.stopSchedulesByStopId stopId).getD []
  let ssm := secondsSinceMidnightOf time
  (((schedule.filter (entryTimeAtLeast ssm)).filter
      (entryServiceRunning st now)).map (scheduledArrivalOfEntry st))

/-- The `/api/static/stop-arrivals` handler body: filter by the current
wall-clock seconds, sort by parsed seconds, truncate to 20, and only then
apply the calendar filter and the Arrival mapping. -/
def staticStopArrivalsHandler (st : StaticData) (stopId : String)
    (now : JSDate) : List Arrival :=
  let schedule := (mapGet st.stopSchedulesByStopId stopId).getD []
  let ssm := secondsSinceMidnightOf now
  let filtered :=
    (jsSort
      (fun a b =>
        decide ((timeToSecondsLocal a.arrivalTime).getD 0 ≤
                (timeToSecondsLocal b.arrivalTime).getD 0))
      (schedule.filter (entryTimeAtLeast ssm))).take 20
  (filtered.filter (entryServiceRunning st now)).map (scheduledArrivalOfEntry st)

/-- A decoded GTFS-realtime `TripDescriptor` (trip-updates feed). -/
structure TUTripDescriptor where
  tripId : Option String
deriving DecidableEq, Repr

/-- A decoded GTFS-realtime `VehicleDescriptor` inside a trip update. -/
structure TUVehicleDescriptor where
  label : Option String
deriving DecidableEq, Repr

/-- A decoded `StopTimeEvent` (predicted arrival or departure). -/
structure StopTimeEvent where
  time : Option Int
deriving DecidableEq, Repr

/-- A decoded `StopTimeUpdate`. -/
structure StopTimeUpdate where
  stopId : Option String
  stopSequence : Option Int
  arrival : Option StopTimeEvent
  departure : Option StopTimeEvent
deriving DecidableEq, Repr

/-- A decoded `TripUpdate`. -/
structure TripUpdateMsg where
  trip : Option TUTripDescriptor
  vehicle : Option TUVehicleDescriptor
  stopTimeUpdate : Option (List StopTimeUpdate)
deriving DecidableEq, Repr

/-- A decoded trip-updates feed entity. -/
structure TUEntity where
  id : String
  tripUpdate : Option TripUpdateMsg
deriving DecidableEq, Repr

/-- The body of the `stopTimeUpdate.forEach` callback in
`getBusesArrivingAtStop`: skip updates for other stops, updates with no (or
falsy-zero) predicted time, and updates outside `[now, now + 2h]`; otherwise
build the realtime Arrival and keep the per-trip earliest by label
comparison. -/
def processStopTime (st : StaticData) (stopId : String) (now : JSDate)
    (tripId : String) (vehicleLabel : Option String)
    (m : List (String × Arrival)) (stopTime : StopTimeUpdate) :
    List (String × Arrival) :=
  if stopTime.stopId ≠ some stopId then m
  else
    let arrivalTimestamp :=
      match stopTime.arrival.bind (fun e => e.time) with
      | some t => some t
      | none => stopTime.departure.bind (fun e => e.time)
    match arrivalTimestamp with
    | none => m
    | some ts =>
      if ts = 0 then m
      else
        let arrivalDate : JSDate := ⟨ts⟩
        if arrivalDate.epochSec < now.epochSec ∨
            now.epochSec + 7200 < arrivalDate.epochSec then m
        else
          let tripInfo := mapGet st.staticTripsById tripId
          let routeInfo :=
            match tripInfo with
            | some ti => if ti.route_id = "" then none else mapGet st.routesById ti.route_id
            | none => none
          let arrival : Arrival :=
            { tripId := tripId
              arrivalTime := formatHHMM arrivalDate
              arrivalLabel := vehicleLabel
              stopSequence := stopTime.stopSequence
              routeId := tripInfo.map (fun ti => ti.route_id)
              routeShortName := routeInfo.bind (fun r => r.route_short_name)
              routeLongName := routeInfo.bind (fun r => r.route_long_name)
              headsign := tripInfo.bind (fun ti => ti.trip_headsign)
              dataSource := "Realtime" }
          match mapGet m tripId with
          | none => mapSet m tripId arrival
          | some existing =>
            if lexLt arrival.arrivalTime existing.arrivalTime then
              mapSet m tripId arrival
            else m

/-- The body of the `feed.entity.forEach` callback in
`getBusesArrivingAtStop`: skip entities without a trip update or without a
truthy trip id, then process each stop-time update. -/
def processEntity (st : StaticData) (stopId : String) (now : JSDate)
    (m : List (String × Arrival)) (entity : TUEntity) :
    List (String × Arrival) :=
  match entity.tripUpdate with
  | none => m
  | some tripUpdate =>
    match tripUpdate.trip.bind (fun t => t.tripId) with
    | none => m
    | some tripId =>
      if tripId = "" then m
      else
        (tripUpdate.stopTimeUpdate.getD []).foldl
          (processStopTime st stopId now tripId
            (tripUpdate.vehicle.bind (fun v => v.label)))
          m

/-- `getBusesArrivingAtStop(stopId)` on an already-decoded trip-updates feed:
deduplicate by trip id keeping the earliest label, sort ascending by the
formatted label, truncate to 20.  `now` models the `new Date()` taken inside
the function. -/
def getBusesArrivingAtStop (st : StaticData) (feed : List TUEntity)
    (stopId : String) (now : JSDate) : List Arrival :=
  let arrivalsByTripId := feed.foldl (processEntity st stopId now) []
  (jsSort (fun a b => lexLe a.arrivalTime b.arrivalTime)
    (arrivalsByTripId.map (fun p => p.2))).take 20

/-- `mergeArrivals(realtime, scheduled)`: key both lists by trip id with
realtime taking precedence, then sort the values by string comparison of
`arrivalTime` and truncate to 20. -/
def mergeArrivals (realtime scheduled : List Arrival) : List Arrival :=
  let byTripId := realtime.foldl (fun m r => mapSet m r.tripId r) []
  let byTripId := scheduled.foldl
    (fun m s => if mapHas m s.tripId then m else mapSet m s.tripId s) byTripId
  (jsSort (fun a b => lexLe a.arrivalTime b.arrivalTime)
    (byTripId.map (fun p => p.2))).take 20

/-- Outcome of the realtime fetch/decode performed by
`getBusesArrivingAtStop`: either the decoded feed or a thrown error
(network failure, non-success status, malformed envelope). -/
inductive RealtimeFetch where
  | ok : List TUEntity → RealtimeFetch
  | failed : RealtimeFetch
deriving DecidableEq, Repr

/-- The `/api/stop-arrivals` handler body: realtime arrivals are computed only
when `|requestTime - now| <= 2h` (in milliseconds); a realtime fetch failure
inside that window is caught by the `try/catch` and passed to `next(err)`,
which the error middleware turns into a 500 response (`Except.error`).
`requestTime` is the output of `parseRequestTime`, `now` the handler's
`new Date()` (which also stands for the wall clock read inside the called
functions, microseconds later in reality). -/
def stopArrivalsHandler (st : StaticData) (stopId : String)
    (requestTime now : JSDate) (rt : RealtimeFetch) :
    Except String (List Arrival) :=
  let canUseRealtime :=
    ((requestTime.epochSec - now.epochSec) * 1000).natAbs ≤ 7200000
  if canUseRealtime then
    match rt with
    | .failed => .error "Internal server error"
    | .ok feed =>
      .ok (mergeArrivals (getBusesArrivingAtStop st feed stopId now)
        (getScheduledArrivalsAtStop st stopId requestTime now))
  else
    .ok (mergeArrivals []
      (getScheduledArrivalsAtStop st stopId requestTime now))

/-- A decoded GTFS-realtime `Position`. -/
structure VPPosition where
  latitude : Option JsDec
  longitude : Option JsDec
  bearing : Option JsDec
  speed : Option JsDec
deriving DecidableEq, Repr

/-- A decoded `TripDescriptor` inside a vehicle-positions entity. -/
structure VPTripDescriptor where
  tripId : Option String
  routeId : Option String
  directionId : Option Int
  scheduleRelationship : Option Int
deriving DecidableEq, Repr

/-- A decoded `VehicleDescriptor` inside a vehicle-positions entity. -/
structure VPDescriptor where
  id : Option String
  label : Option String
  licensePlate : Option String
deriving DecidableEq, Repr

/-- A decoded `VehiclePosition` message. -/
structure VPVehicle where
  trip : Option VPTripDescriptor
  position : Option VPPosition
  currentStopSequence : Option Int
  stopId : Option String
  congestionLevel : Option Int
  timestamp : Option Int
  vehicle : Option VPDescriptor
deriving DecidableEq, Repr

/-- A decoded vehicle-positions feed entity. -/
structure VPEntity where
  id : String
  vehicle : Option VPVehicle
deriving DecidableEq, Repr

/-- The nested `position` object of a normalized vehicle record. -/
structure VehiclePositionOut where
  latitude : Option JsDec
  longitude : Option JsDec
  bearing : Option JsDec
  speed : Option JsDec
deriving DecidableEq, Repr

/-- A normalized vehicle record as returned by `loadVehiclePositions`.  The
`timestamp` field keeps the epoch seconds of the capture instant; the source
renders it as an ISO string, a formatting step with no informational
content. -/
structure VehicleRecord where
  entityId : String
  vehicleId : String
  tripId : Option String
  routeId : Option String
  directionId : Option Int
  position : VehiclePositionOut
  timestamp : Option Int
  currentStopSequence : Option Int
  stopId : Option String
  congestionLevel : Option Int
  scheduleRelationship : Option Int
  label : Option String
  licensePlate : Option String
deriving DecidableEq, Repr

/-- The per-entity normalization in `loadVehiclePositions`, applied to each
entity whose `vehicle` field is present. -/
def mkVehicleRecord (entity : VPEntity) (vehicle : VPVehicle) : VehicleRecord :=
  let position := vehicle.position
  let trip := vehicle.trip
  let descriptor := vehicle.vehicle
  { entityId := entity.id
    vehicleId :=
      match descriptor.bind (fun d => d.id) with
      | some i => i
      | none =>
        match descriptor.bind (fun d => d.label) with
        | some l => l
        | none => entity.id
    tripId := trip.bind (fun t => t.tripId)
    routeId := trip.bind (fun t => t.routeId)
    directionId := trip.bind (fun t => t.directionId)
    position :=
      { latitude := position.bind (fun p => p.latitude)
        longitude := position.bind (fun p => p.longitude)
        bearing := position.bind (fun p => p.bearing)
        speed := position.bind (fun p => p.speed) }
    timestamp :=
      match vehicle.timestamp with
      | some t => if t = 0 then none else some t
      | none => none
    currentStopSequence := vehicle.currentStopSequence
    stopId := vehicle.stopId
    congestionLevel := vehicle.congestionLevel
    scheduleRelationship := trip.bind (fun t => t.scheduleRelationship)
    label := descriptor.bind (fun d => d.label)
    licensePlate := descriptor.bind (fun d => d.licensePlate) }

/-- `loadVehiclePositions` on an already-decoded vehicle feed:
`feed.entity.filter(e => e.vehicle).map(normalize)`. -/
def loadVehiclePositions (feed : List VPEntity) : List VehicleRecord :=
  feed.filterMap (fun entity => entity.vehicle.map (mkVehicleRecord entity))

/-- Raw fixture tables: one route used by the concrete states below. -/
def rawRouteR1 : RawRoute :=
  { route_id := "R1", route_short_name := some "1",
    route_long_name := some "Spring Garden", route_desc := none,
    route_type := some "3", route_color := some "EF4E23" }

/-- A raw trip on route R1 / service WD. -/
def rawTripWD (tid : String) : RawTrip :=
  { route_id := "R1", service_id := "WD", trip_id := tid,
    trip_headsign := some "Downtown", direction_id := some "0",
    shape_id := some "SH1" }

/-- A raw stop-time row at stop S1. -/
def rawStopTimeS1 (tid t seq : String) : RawStopTime :=
  { trip_id := tid, stop_id := "S1", arrival_time := some t,
    departure_time := some t, stop_sequence := some seq }

/-- A raw calendar row running every day of 2020-2030. -/
def rawCalendarAllDays : RawCalendar :=
  { service_id := "WD", monday := some "1", tuesday := some "1",
    wednesday := some "1", thursday := some "1", friday := some "1",
    saturday := some "1", sunday := some "1",
    start_date := "20200101", end_date := "20301231" }

/-- Static state for the C1 scenario: trips T1 (09:00) and T2 (10:00) at stop
S1, service running every day. -/
def stC1 : StaticData :=
  loadStaticData [rawRouteR1] [] [rawTripWD "T1", rawTripWD "T2"] []
    [rawStopTimeS1 "T1" "9:00:00" "1", rawStopTimeS1 "T2" "10:00:00" "2"]
    [rawCalendarAllDays]

/-- The C1 request time: Monday 2024-03-04 at midnight. -/
def reqC1 : JSDate := jsMakeDateTime 2024 2 4 0 0 0

/-- The C1 wall clock: the same Monday at noon, 12 hours from `reqC1`. -/
def nowC1 : JSDate := jsMakeDateTime 2024 2 4 12 0 0

/-- The scheduled 09:00 arrival of trip T1 in the C1 state. -/
def arrC1nine : Arrival :=
  { tripId := "T1", arrivalTime := "9:00:00", arrivalLabel := some "09:00",
    stopSequence := some 1, routeId := some "R1", routeShortName := some "1",
    routeLongName := some "Spring Garden", headsign := some "Downtown",
    dataSource := "Scheduled" }

/-- The scheduled 10:00 arrival of trip T2 in the C1 state. -/
def arrC1ten : Arrival :=
  { tripId := "T2", arrivalTime := "10:00:00", arrivalLabel := some "10:00",
    stopSequence := some 2, routeId := some "R1", routeShortName := some "1",
    routeLongName := some "Spring Garden", headsign := some "Downtown",
    dataSource := "Scheduled" }

/-- A raw calendar row whose service runs on Mondays only, through 2024. -/
def rawCalendarMondayOnly : RawCalendar :=
  { service_id := "WD", monday := some "1", tuesday := some "0",
    wednesday := some "0", thursday := some "0", friday := some "0",
    saturday := some "0", sunday := some "0",
    start_date := "20240101", end_date := "20241231" }

/-- Static state for the C3 scenario: one trip at S1 (08:00), service running
on Mondays only. -/
def stC3 : StaticData :=
  loadStaticData [rawRouteR1] [] [rawTripWD "T1"] []
    [rawStopTimeS1 "T1" "08:00:00" "1"] [rawCalendarMondayOnly]

/-- The C3 query time: Monday 2024-03-04 at 07:00. -/
def atTimeC3 : JSDate := jsMakeDateTime 2024 2 4 7 0 0

/-- A wall clock on Sunday 2024-03-03 at 07:00 (the day before the query). -/
def wallSunC3 : JSDate := jsMakeDateTime 2024 2 3 7 0 0

/-- A wall clock equal to the C3 query time (Monday 07:00). -/
def wallMonC3 : JSDate := jsMakeDateTime 2024 2 4 7 0 0

/-- The arrival C3 expects for trip T1 when the Monday service is applied. -/
def arrC3 : Arrival :=
  { tripId := "T1", arrivalTime := "08:00:00", arrivalLabel := some "08:00",
    stopSequence := some 1, routeId := some "R1", routeShortName := some "1",
    routeLongName := some "Spring Garden", headsign := some "Downtown",
    dataSource := "Scheduled" }

/-- Calendar index for the C4 scenario: one service, every weekday flag set,
valid 2024-01-01 through 2024-12-31. -/
def calC4 : List (String × CalendarService) :=
  buildCalendar
    [{ service_id := "FD", monday := some "1", tuesday := some "1",
       wednesday := some "1", thursday := some "1", friday := some "1",
       saturday := some "1", sunday := some "1",
       start_date := "20240101", end_date := "20241231" }]

/-- Noon on the inclusive end date 2024-12-31 (a Tuesday). -/
def endDateNoonC4 : JSDate := jsMakeDateTime 2024 11 31 12 0 0

/-- Local midnight opening the end date 2024-12-31. -/
def endDateMidnightC4 : JSDate := jsMakeDate 2024 11 31

/-- An empty static state (all tables empty), used where the static data is
irrelevant. -/
def stEmpty : StaticData := loadStaticData [] [] [] [] [] []

/-- An arbitrary instant used with `stEmpty`. -/
def tC5 : JSDate := jsMakeDateTime 2024 5 1 9 30 0

/-- Static state for the C6 counterexample: 21 trips serving stop S1 at
06:00:00 through 06:20:00, service running every day. -/
def stC6 : StaticData :=
  loadStaticData [rawRouteR1] []
    ((List.range 21).map (fun i => rawTripWD ("T" ++ padTwo i))) []
    ((List.range 21).map (fun i =>
      rawStopTimeS1 ("T" ++ padTwo i) ("06:" ++ padTwo i ++ ":00") "1"))
    [rawCalendarAllDays]

/-- Midnight on Monday 2024-03-04, used as both query time and wall clock in
the C6 counterexample. -/
def tC6 : JSDate := jsMakeDateTime 2024 2 4 0 0 0

/-- A raw shape row for shape SH with a given sequence string. -/
def rawShapeSH (lat lon : String) (seq : Option String) : RawShape :=
  { shape_id := "SH", shape_pt_lat := some lat, shape_pt_lon := some lon,
    shape_pt_sequence := seq }

/-- A raw stop-time row identical to `rawStopTimeS1 "T1" "08:00:00"` except
for its stop-sequence field. -/
def rawStopTimeSeq (seq : Option String) : RawStopTime :=
  { trip_id := "T1", stop_id := "S1", arrival_time := some "08:00:00",
    departure_time := none, stop_sequence := seq }

/-- A vehicle-positions entity whose vehicle lacks both the position and the
trip descriptor (the mandatory sub-fields of claim C8). -/
def entityNoPosC8 : VPEntity :=
  { id := "ent1",
    vehicle := some
      { trip := none, position := none, currentStopSequence := none,
        stopId := none, congestionLevel := none, timestamp := none,
        vehicle := none } }

/-- The record `loadVehiclePositions` produces for `entityNoPosC8`. -/
def recC8 : VehicleRecord :=
  { entityId := "ent1", vehicleId := "ent1", tripId := none, routeId := none,
    directionId := none,
    position := { latitude := none, longitude := none, bearing := none,
                  speed := none },
    timestamp := none, currentStopSequence := none, stopId := none,
    congestionLevel := none, scheduleRelationship := none, label := none,
    licensePlate := none }

/-- Two shape rows for the same shape carrying the same sequence number 5. -/
def rowsC9 : List RawShape :=
  [rawShapeSH "44.64" "-63.57" (some "5"), rawShapeSH "44.65" "-63.58" (some "5")]

/-- The first C9 shape point. -/
def pC9a : ShapePoint :=
  { shape_pt_lat := ⟨4464, 2⟩, shape_pt_lon := ⟨-6357, 2⟩, shape_pt_sequence := 5 }

/-- The second C9 shape point. -/
def pC9b : ShapePoint :=
  { shape_pt_lat := ⟨4465, 2⟩, shape_pt_lon := ⟨-6358, 2⟩, shape_pt_sequence := 5 }

/-- The `/api/static/shape` handler body: the prebuilt point list, or `[]` for
an unknown shape id. -/
def staticShapeHandler (shapesById : List (String × List ShapePoint))
    (shapeId : String) : List ShapePoint :=
  (mapGet shapesById shapeId).getD []

/-- Static state for the C10 contrast: the schedule at stop S1 references trip
TX, but TX is absent from the trip table. -/
def stC10 : StaticData :=
  loadStaticData [rawRouteR1] [] [rawTripWD "T1"] []
    [rawStopTimeS1 "TX" "10:30:00" "5"] [rawCalendarAllDays]

/-- The C10 wall clock: Monday 2024-03-04 at 10:00. -/
def nowC10 : JSDate := jsMakeDateTime 2024 2 4 10 0 0

/-- A trip-updates feed announcing unknown trip TX at stop S1, ten minutes
after `nowC10`. -/
def feedC10 : List TUEntity :=
  [{ id := "e1",
     tripUpdate := some
       { trip := some { tripId := some "TX" },
         vehicle := some { label := some "1001" },
         stopTimeUpdate := some
           [{ stopId := some "S1", stopSequence := some 5,
              arrival := some { time := some (nowC10.epochSec + 600) },
              departure := none }] } }]

/-- The realtime arrival C10 expects for the unknown trip TX. -/
def arrC10 : Arrival :=
  { tripId := "TX", arrivalTime := "10:10", arrivalLabel := some "1001",
    stopSequence := some 5, routeId := none, routeShortName := none,
    routeLongName := none, headsign := none, dataSource := "Realtime" }

/-- A realtime arrival for trip RT at 23:30, used by the C2 counterexample. -/
def rtArrC2 : Arrival :=
  { tripId := "RT", arrivalTime := "23:30:00", arrivalLabel := some "1001",
    stopSequence := some 1, routeId := some "R1", routeShortName := some "1",
    routeLongName := none, headsign := none, dataSource := "Realtime" }

/-- A scheduled arrival for the same trip RT at 22:00. -/
def schedArrC2 : Arrival :=
  { tripId := "RT", arrivalTime := "22:00:00", arrivalLabel := some "22:00",
    stopSequence := some 1, routeId := some "R1", routeShortName := some "1",
    routeLongName := none, headsign := none, dataSource := "Scheduled" }

/-- The i-th of twenty scheduled-only arrivals before 07:00, used by the C2
counterexample. -/
def fillerArrC2 (i : Nat) : Arrival :=
  { tripId := "T" ++ padTwo i, arrivalTime := "06:" ++ padTwo i ++ ":00",
    arrivalLabel := some ("06:" ++ padTwo i), stopSequence := some 1,
    routeId := some "R1", routeShortName := some "1", routeLongName := none,
    headsign := none, dataSource := "Scheduled" }

/-- The C2 counterexample inputs: trip RT present in both lists, plus twenty
earlier scheduled-only trips. -/
def schedListC2 : List Arrival := (List.range 20).map fillerArrC2 ++ [schedArrC2]

/-- A raw trip on route R1 with a chosen service id. -/
def rawTripSvc (svc tid : String) : RawTrip :=
  { route_id := "R1", service_id := svc, trip_id := tid,
    trip_headsign := some "Downtown", direction_id := some "0",
    shape_id := some "SH1" }

/-- A raw calendar row for service NR with every weekday flag unset. -/
def rawCalendarNeverRuns : RawCalendar :=
  { service_id := "NR", monday := some "0", tuesday := some "0",
    wednesday := some "0", thursday := some "0", friday := some "0",
    saturday := some "0", sunday := some "0",
    start_date := "20200101", end_date := "20301231" }

/-- Static state for the C6 filter-order counterexample: the twenty earliest
trips at S1 belong to the never-running service NR, the 21st (T20, 06:20) to
the always-running service WD. -/
def stC6b : StaticData :=
  loadStaticData [rawRouteR1] []
    ((List.range 20).map (fun i => rawTripSvc "NR" ("T" ++ padTwo i)) ++
      [rawTripSvc "WD" "T20"]) []
    ((List.range 21).map (fun i =>
      rawStopTimeS1 ("T" ++ padTwo i) ("06:" ++ padTwo i ++ ":00") "1"))
    [rawCalendarAllDays, rawCalendarNeverRuns]

/-- The single running arrival in the `stC6b` state. -/
def arrC6T20 : Arrival :=
  { tripId := "T20", arrivalTime := "06:20:00", arrivalLabel := some "06:20",
    stopSequence := some 1, routeId := some "R1", routeShortName := some "1",
    routeLongName := some "Spring Garden", headsign := some "Downtown",
    dataSource := "Scheduled" }

theorem jsSortInsert_perm (le : α → α → Bool) (a : α) (l : List α) :
    (jsSortInsert le a l).Perm (a :: l) := by
  induction l with
  | nil => simp [jsSortInsert]
  | cons b bs ih =>
    by_cases h : le a b = true
    · simp [jsSortInsert, h]
    · simp only [jsSortInsert, if_neg h]
      exact (ih.cons b).trans (List.Perm.swap a b bs)

theorem jsSort_perm (le : α → α → Bool) (l : List α) :
    (jsSort le l).Perm l := by
  induction l with
  | nil => simp [jsSort]
  | cons a as ih =>
    exact (jsSortInsert_perm le a (jsSort le as)).trans (ih.cons a)

theorem mem_jsSort {le : α → α → Bool} {a : α} {l : List α} :
    a ∈ jsSort le l ↔ a ∈ l :=
  (jsSort_perm le l).mem_iff

theorem mem_jsSortInsert {le : α → α → Bool} {x a : α} {l : List α} :
    x ∈ jsSortInsert le a l ↔ x = a ∨ x ∈ l := by
  rw [(jsSortInsert_perm le a l).mem_iff, List.mem_cons]

theorem jsSortInsert_pairwise (le : α → α → Bool)
    (htrans : ∀ a b c, le a b = true → le b c = true → le a c = true)
    (htot : ∀ a b, le a b = true ∨ le b a = true)
    (a : α) (l : List α) (hl : l.Pairwise (fun x y => le x y = true)) :
    (jsSortInsert le a l).Pairwise (fun x y => le x y = true) := by
  induction l with
  | nil => simp [jsSortInsert]
  | cons b bs ih =>
    rcases hl with _ | ⟨hb, hbs⟩
    by_cases h : le a b = true
    · simp only [jsSortInsert, if_pos h]
      refine List.Pairwise.cons ?_ (List.Pairwise.cons hb hbs)
      intro y hy
      rcases List.mem_cons.mp hy with rfl | hy
      · exact h
      · exact htrans a b y h (hb y hy)
    · simp only [jsSortInsert, if_neg h]
      refine List.Pairwise.cons ?_ (ih hbs)
      intro y hy
      rcases mem_jsSortInsert.mp hy with rfl | hy
      · rcases htot y b with hyb | hby
        · exact absurd hyb h
        · exact hby
      · exact hb y hy

theorem jsSort_pairwise (le : α → α → Bool)
    (htrans : ∀ a b c, le a b = true → le b c = true → le a c = true)
    (htot : ∀ a b, le a b = true ∨ le b a = true) (l : List α) :
    (jsSort le l).Pairwise (fun x y => le x y = true) := by
  induction l with
  | nil => simp [jsSort]
  | cons a as ih => exact jsSortInsert_pairwise le htrans htot a (jsSort le as) ih


theorem lexLtChars_irrefl : ∀ as : List Char, lexLtChars as as = false := by
  intro as
  induction as with
  | nil => simp [lexLtChars]
  | cons a as' ih => simp [lexLtChars, ih]

theorem lexLtChars_asymm : ∀ as bs : List Char,
    lexLtChars as bs = true → lexLtChars bs as = false := by
  intro as
  induction as with
  | nil =>
    intro bs h
    cases bs with
    | nil => simpa [lexLtChars] using h
    | cons b bs' => simp [lexLtChars]
  | cons a as' ih =>
    intro bs h
    cases bs with
    | nil => simpa [lexLtChars] using h
    | cons b bs' =>
      simp only [lexLtChars] at h ⊢
      by_cases hab : a.toNat < b.toNat
      · have hba : ¬ b.toNat < a.toNat := by omega
        simp [if_neg hba, hab]
      · simp only [if_neg hab] at h
        by_cases hba : b.toNat < a.toNat
        · simp [if_pos hba] at h
        · simp only [if_neg hba] at h ⊢
          simp [if_neg hab, ih bs' h]

theorem lexLtChars_tricho : ∀ as bs : List Char,
    lexLtChars as bs = true ∨ as = bs ∨ lexLtChars bs as = true := by
  intro as
  induction as with
  | nil =>
    intro bs
    cases bs with
    | nil => exact Or.inr (Or.inl rfl)
    | cons b bs' => exact Or.inl (by simp [lexLtChars])
  | cons a as' ih =>
    intro bs
    cases bs with
    | nil => exact Or.inr (Or.inr (by simp [lexLtChars]))
    | cons b bs' =>
      by_cases hab : a.toNat < b.toNat
      · exact Or.inl (by simp [lexLtChars, hab])
      · by_cases hba : b.toNat < a.toNat
        · exact Or.inr (Or.inr (by simp [lexLtChars, hba]))
        · have htN : a.toNat = b.toNat :=
            Nat.le_antisymm (Nat.le_of_not_lt hba) (Nat.le_of_not_lt hab)
          have hchar : a = b := Char.ext (UInt32.ext htN)
          rcases ih bs' with h | h | h
          · exact Or.inl (by simp [lexLtChars, if_neg hab, if_neg hba, h])
          · exact Or.inr (Or.inl (by rw [hchar, h]))
          · exact Or.inr (Or.inr (by simp [lexLtChars, if_neg hab, if_neg hba, h]))

theorem lexLtChars_trans : ∀ as bs cs : List Char,
    lexLtChars as bs = true → lexLtChars bs cs = true → lexLtChars as cs = true := by
  intro as
  induction as with
  | nil =>
    intro bs cs h1 h2
    cases bs with
    | nil => simpa [lexLtChars] using h1
    | cons b bs' =>
      cases cs with
      | nil => simpa [lexLtChars] using h2
      | cons c cs' => simp [lexLtChars]
  | cons a as' ih =>
    intro bs cs h1 h2
    cases bs with
    | nil => simpa [lexLtChars] using h1
    | cons b bs' =>
      cases cs with
      | nil => simpa [lexLtChars] using h2
      | cons c cs' =>
        simp only [lexLtChars] at h1 h2 ⊢
        by_cases hab : a.toNat < b.toNat
        · by_cases hbc : b.toNat < c.toNat
          · simp [show a.toNat < c.toNat by omega]
          · simp only [if_pos hab] at h1
            by_cases hcb : c.toNat < b.toNat
            · simp [if_neg hbc, if_pos hcb] at h2
            · simp [show a.toNat < c.toNat by omega]
        · simp only [if_neg hab] at h1
          by_cases hba : b.toNat < a.toNat
          · simp [if_pos hba] at h1
          · simp only [if_neg hba] at h1
            by_cases hbc : b.toNat < c.toNat
            · simp [show a.toNat < c.toNat by omega]
            · simp only [if_neg hbc] at h2
              by_cases hcb : c.toNat < b.toNat
              · simp [if_pos hcb] at h2
              · simp only [if_neg hcb] at h2
                have hac : ¬ a.toNat < c.toNat := by omega
                have hca : ¬ c.toNat < a.toNat := by omega
                simp [if_neg hac, if_neg hca, ih bs' cs' h1 h2]

theorem lexLe_total (a b : String) : lexLe a b = true ∨ lexLe b a = true := by
  simp only [lexLe, Bool.not_eq_true', Bool.not_eq_true]
  rcases lexLtChars_tricho a.toList b.toList with h | h | h
  · exact Or.inl (lexLtChars_asymm _ _ h)
  · exact Or.inl (by rw [h]; exact lexLtChars_irrefl _)
  · exact Or.inr (lexLtChars_asymm _ _ h)

theorem lexLe_trans (a b c : String) (h1 : lexLe a b = true)
    (h2 : lexLe b c = true) : lexLe a c = true := by
  simp only [lexLe, Bool.not_eq_true', Bool.not_eq_true] at h1 h2 ⊢
  by_contra hca
  simp only [Bool.not_eq_false] at hca
  rcases lexLtChars_tricho a.toList b.toList with h | h | h
  · have := lexLtChars_trans _ _ _ hca h
    rw [h2] at this
    cases this
  · rw [← h] at h2
    rw [h2] at hca
    cases hca
  · rw [h1] at h
    cases h

theorem mapHas_iff {β : Type} {m : List (String × β)} {k : String} :
    mapHas m k = true ↔ k ∈ m.map Prod.fst := by
  simp only [mapHas, List.any_eq_true, List.mem_map, decide_eq_true_eq]

theorem mem_of_mem_mapSet {β : Type} {m : List (String × β)} {k : String}
    {v : β} {p : String × β} (hp : p ∈ mapSet m k v) : p ∈ m ∨ p = (k, v) := by
  unfold mapSet at hp
  by_cases h : mapHas m k = true
  · rw [if_pos h] at hp
    rcases List.mem_map.mp hp with ⟨q, hq, hqe⟩
    by_cases hqk : q.1 = k
    · rw [if_pos hqk] at hqe
      exact Or.inr hqe.symm
    · rw [if_neg hqk] at hqe
      exact Or.inl (hqe ▸ hq)
  · rw [if_neg h] at hp
    rcases List.mem_append.mp hp with hp | hp
    · exact Or.inl hp
    · exact Or.inr (List.mem_singleton.mp hp)

theorem keys_mapSet {β : Type} (m : List (String × β)) (k : String) (v : β) :
    (mapSet m k v).map Prod.fst =
      if mapHas m k = true then m.map Prod.fst else m.map Prod.fst ++ [k] := by
  unfold mapSet
  by_cases h : mapHas m k = true
  · rw [if_pos h, if_pos h, List.map_map]
    refine List.map_congr_left ?_
    intro p _
    by_cases hpk : p.1 = k
    · simp [hpk]
    · simp [hpk]
  · rw [if_neg h, if_neg h, List.map_append]
    rfl

theorem keysNodup_mapSet {β : Type} {m : List (String × β)} {k : String}
    {v : β} (h : (m.map Prod.fst).Nodup) :
    ((mapSet m k v).map Prod.fst).Nodup := by
  rw [keys_mapSet]
  by_cases hk : mapHas m k = true
  · rwa [if_pos hk]
  · rw [if_neg hk]
    have hkm : k ∉ m.map Prod.fst := fun hmem => hk (mapHas_iff.mpr hmem)
    rw [List.nodup_append]
    refine ⟨h, List.nodup_singleton k, ?_⟩
    intro x hx hx2
    rw [List.mem_singleton] at hx2
    subst hx2
    exact hkm hx

theorem mapHas_mapSet_mono {β : Type} {m : List (String × β)} {k k' : String}
    {v : β} (h : mapHas m k' = true) : mapHas (mapSet m k v) k' = true := by
  rw [mapHas_iff, keys_mapSet]
  by_cases hk : mapHas m k = true
  · rw [if_pos hk]
    exact mapHas_iff.mp h
  · rw [if_neg hk]
    exact List.mem_append.mpr (Or.inl (mapHas_iff.mp h))

theorem mapHas_mapSet_self {β : Type} (m : List (String × β)) (k : String)
    (v : β) : mapHas (mapSet m k v) k = true := by
  rw [mapHas_iff, keys_mapSet]
  by_cases hk : mapHas m k = true
  · rw [if_pos hk]
    exact mapHas_iff.mp hk
  · rw [if_neg hk]
    exact List.mem_append.mpr (Or.inr (List.mem_singleton.mpr rfl))

theorem foldl_pres_mem {β γ : Type} (P : γ → Prop) (l : List β)
    (step : List γ → β → List γ)
    (hstep : ∀ m b, b ∈ l → ∀ p ∈ step m b, p ∈ m ∨ P p) :
    ∀ m, (∀ p ∈ m, P p) → ∀ p ∈ l.foldl step m, P p := by
  induction l with
  | nil => intro m hm p hp; exact hm p hp
  | cons b bs ih =>
    intro m hm p hp
    refine ih (fun m' b' hb' => hstep m' b' (List.mem_cons_of_mem b hb'))
      (step m b) ?_ p hp
    intro q hq
    rcases hstep m b (List.mem_cons_self b bs) q hq with hq' | hq'
    · exact hm q hq'
    · exact hq'

theorem foldl_pres_prop {β γ : Type} (Q : γ → Prop) (l : List β)
    (step : γ → β → γ) (hstep : ∀ m b, Q m → Q (step m b)) :
    ∀ m, Q m → Q (l.foldl step m) := by
  induction l with
  | nil => intro m hm; exact hm
  | cons b bs ih => intro m hm; exact ih (step m b) (hstep m b hm)

theorem fold_mapSet_has_mono (l : List Arrival) (m : List (String × Arrival))
    (k : String) (h : mapHas m k = true) :
    mapHas (l.foldl (fun m r => mapSet m r.tripId r) m) k = true :=
  foldl_pres_prop (fun m => mapHas m k = true) l _
    (fun _ r hm => mapHas_mapSet_mono hm) m h

theorem fold_mapSet_has_of_mem (realtime : List Arrival) :
    ∀ (m : List (String × Arrival)) (r : Arrival), r ∈ realtime →
      mapHas (realtime.foldl (fun m r => mapSet m r.tripId r) m) r.tripId = true := by
  induction realtime with
  | nil => intro m r hr; cases hr
  | cons x xs ih =>
    intro m r hr
    rcases List.mem_cons.mp hr with rfl | hr
    · exact fold_mapSet_has_mono xs (mapSet m r.tripId r) r.tripId
        (mapHas_mapSet_self m r.tripId r)
    · exact ih (mapSet m x.tripId x) r hr

theorem fold_mapSet_keysNodup (l : List Arrival) (m : List (String × Arrival))
    (h : (m.map Prod.fst).Nodup) :
    ((l.foldl (fun m r => mapSet m r.tripId r) m).map Prod.fst).Nodup :=
  foldl_pres_prop (fun m => (m.map Prod.fst).Nodup) l _
    (fun _ r hm => keysNodup_mapSet hm) m h

theorem fold_sched_keysNodup (l : List Arrival) (m : List (String × Arrival))
    (h : (m.map Prod.fst).Nodup) :
    ((l.foldl (fun m s => if mapHas m s.tripId then m else mapSet m s.tripId s)
        m).map Prod.fst).Nodup := by
  refine foldl_pres_prop (fun m => (m.map Prod.fst).Nodup) l _ ?_ m h
  intro m' s hm
  by_cases hs : mapHas m' s.tripId = true
  · simpa [hs] using hm
  · simpa [hs] using keysNodup_mapSet hm

theorem fold_mapSet_values (realtime : List Arrival)
    (m : List (String × Arrival))
    (hm : ∀ p ∈ m, p.2.tripId = p.1 ∧ p.2 ∈ realtime) :
    ∀ p ∈ realtime.foldl (fun m r => mapSet m r.tripId r) m,
      p.2.tripId = p.1 ∧ p.2 ∈ realtime := by
  refine foldl_pres_mem (fun p => p.2.tripId = p.1 ∧ p.2 ∈ realtime)
    realtime _ ?_ m hm
  intro m' r hr p hp
  rcases mem_of_mem_mapSet hp with hp' | rfl
  · exact Or.inl hp'
  · exact Or.inr ⟨rfl, hr⟩

theorem fold_sched_invariant (realtime scheduled : List Arrival) :
    ∀ (l : List Arrival) (m : List (String × Arrival)),
      (∀ s ∈ l, s ∈ scheduled) →
      (∀ r ∈ realtime, mapHas m r.tripId = true) →
      (∀ p ∈ m, p.2.tripId = p.1 ∧
        ((p.1 ∈ realtime.map (fun a => a.tripId) ∧ p.2 ∈ realtime) ∨
         (p.1 ∉ realtime.map (fun a => a.tripId) ∧ p.2 ∈ scheduled))) →
      ∀ p ∈ l.foldl
          (fun m s => if mapHas m s.tripId then m else mapSet m s.tripId s) m,
        p.2.tripId = p.1 ∧
        ((p.1 ∈ realtime.map (fun a => a.tripId) ∧ p.2 ∈ realtime) ∨
         (p.1 ∉ realtime.map (fun a => a.tripId) ∧ p.2 ∈ scheduled)) := by
  intro l
  induction l with
  | nil => intro m _ _ hval p hp; exact hval p hp
  | cons s ss ih =>
    intro m hsub hhas hval p hp
    simp only [List.foldl_cons] at hp
    by_cases hs : mapHas m s.tripId = true
    · rw [if_pos hs] at hp
      exact ih m (fun x hx => hsub x (List.mem_cons_of_mem s hx)) hhas hval p hp
    · rw [if_neg hs] at hp
      refine ih (mapSet m s.tripId s)
        (fun x hx => hsub x (List.mem_cons_of_mem s hx))
        (fun r hr => mapHas_mapSet_mono (hhas r hr)) ?_ p hp
      intro q hq
      rcases mem_of_mem_mapSet hq with hq' | rfl
      · exact hval q hq'
      · refine ⟨rfl, Or.inr ⟨?_, hsub s (List.mem_cons_self s ss)⟩⟩
        intro hmem
        rcases List.mem_map.mp hmem with ⟨r, hr, hrk⟩
        have hrs : r.tripId = s.tripId := hrk
        refine hs ?_
        rw [← hrs]
        exact hhas r hr

theorem values_tripId_eq_keys (m : List (String × Arrival))
    (h : ∀ p ∈ m, p.2.tripId = p.1) :
    (m.map Prod.snd).map (fun a => a.tripId) = m.map Prod.fst := by
  rw [List.map_map]
  exact List.map_congr_left (fun p hp => h p hp)

theorem mergeArrivals_eq (realtime scheduled : List Arrival) :
    mergeArrivals realtime scheduled =
      (jsSort (fun a b => lexLe a.arrivalTime b.arrivalTime)
        ((scheduled.foldl
            (fun m s => if mapHas m s.tripId then m else mapSet m s.tripId s)
            (realtime.foldl (fun m r => mapSet m r.tripId r) [])).map
          (fun p => p.2))).take 20 := rfl

/-- C1 (counterexample): with the realtime window closed (request 12 hours
away from the wall clock) the merged endpoint returns the scheduled entries
re-sorted by string comparison of their `HH:MM:SS` text, so `"10:00:00"`
sorts before `"9:00:00"` and the merged list is not the scheduled list. -/
theorem merged_outside_window_ne_scheduled :
    ((reqC1.epochSec - nowC1.epochSec) * 1000).natAbs > 7200000 ∧
    stopArrivalsHandler stC1 "S1" reqC1 nowC1 .failed =
      .ok [arrC1ten, arrC1nine] ∧
    getScheduledArrivalsAtStop stC1 "S1" reqC1 nowC1 =
      [arrC1nine, arrC1ten] ∧
    ([arrC1ten, arrC1nine] : List Arrival) ≠ [arrC1nine, arrC1ten] := by
  refine ⟨by decide, by rfl, by decide, ?_⟩
  intro h
  have := List.head_eq_of_cons_eq h
  exact absurd (congrArg Arrival.tripId this) (by decide)

/-- C1 (amended): whenever `requestTime` is more than two hours (in
milliseconds) from the wall clock, the merged endpoint never performs any
realtime computation — the response is the same for every realtime-fetch
outcome, namely `mergeArrivals []` of the scheduled arrivals (which
deduplicates them by trip id, re-sorts them by string comparison of the
time text and truncates to 20, so it need not equal the scheduled list
itself). -/
theorem merged_outside_window_skips_realtime (st : StaticData) (stopId : String)
    (requestTime now : JSDate) (rt : RealtimeFetch)
    (h : 7200000 < ((requestTime.epochSec - now.epochSec) * 1000).natAbs) :
    stopArrivalsHandler st stopId requestTime now rt =
      .ok (mergeArrivals [] (getScheduledArrivalsAtStop st stopId requestTime now)) := by
  unfold stopArrivalsHandler
  rw [if_neg]
  omega

/-- Witness for the C1 amended theorem at the concrete C1 state, with a
failing realtime fetch. -/
theorem merged_outside_window_skips_realtime_witness :
    7200000 < ((reqC1.epochSec - nowC1.epochSec) * 1000).natAbs ∧
    stopArrivalsHandler stC1 "S1" reqC1 nowC1 .failed =
      .ok (mergeArrivals [] (getScheduledArrivalsAtStop stC1 "S1" reqC1 nowC1)) :=
  ⟨by decide,
   merged_outside_window_skips_realtime stC1 "S1" reqC1 nowC1 .failed (by decide)⟩

/-- C2 (counterexample): a trip present in both input lists can be absent from
the merged output altogether — with twenty earlier scheduled-only trips, trip
RT's realtime entry sorts last and the final truncation to 20 removes it, so
the merged list does not contain RT's realtime entry. -/
theorem merge_can_drop_shared_trip :
    "RT" ∈ ([rtArrC2].map (fun a => a.tripId)) ∧
    "RT" ∈ (schedListC2.map (fun a => a.tripId)) ∧
    (mergeArrivals [rtArrC2] schedListC2).filter (fun a => a.tripId = "RT") = [] := by
  decide

/-- C2 (amended): the merged list never contains two entries with the same
trip identifier, and every merged entry is the realtime entry of its trip when
the trip occurs in the realtime list, and its scheduled entry otherwise; the
truncation to 20 may however drop a trip (realtime entry included) entirely. -/
theorem merge_unique_trips_and_realtime_precedence
    (realtime scheduled : List Arrival) :
    ((mergeArrivals realtime scheduled).map (fun a => a.tripId)).Nodup ∧
    ∀ a ∈ mergeArrivals realtime scheduled,
      (a.tripId ∈ realtime.map (fun r => r.tripId) ∧ a ∈ realtime) ∨
      (a.tripId ∉ realtime.map (fun r => r.tripId) ∧ a ∈ scheduled) := by
  have hm1keys : (((realtime.foldl (fun m r => mapSet m r.tripId r) []).map
      Prod.fst)).Nodup :=
    fold_mapSet_keysNodup realtime [] (by simp)
  have hm1vals : ∀ p ∈ realtime.foldl (fun m r => mapSet m r.tripId r) [],
      p.2.tripId = p.1 ∧ p.2 ∈ realtime :=
    fold_mapSet_values realtime [] (by simp)
  have hm2keys := fold_sched_keysNodup scheduled _ hm1keys
  have hm2vals : ∀ p ∈ scheduled.foldl
      (fun m s => if mapHas m s.tripId then m else mapSet m s.tripId s)
      (realtime.foldl (fun m r => mapSet m r.tripId r) []),
      p.2.tripId = p.1 ∧
      ((p.1 ∈ realtime.map (fun a => a.tripId) ∧ p.2 ∈ realtime) ∨
       (p.1 ∉ realtime.map (fun a => a.tripId) ∧ p.2 ∈ scheduled)) := by
    refine fold_sched_invariant realtime scheduled scheduled _
      (fun s hs => hs) (fun r hr => fold_mapSet_has_of_mem realtime [] r hr) ?_
    intro p hp
    rcases hm1vals p hp with ⟨hk, hmem⟩
    exact ⟨hk, Or.inl ⟨hk ▸ List.mem_map.mpr ⟨p.2, hmem, rfl⟩, hmem⟩⟩
  constructor
  · rw [mergeArrivals_eq, List.map_take]
    refine (List.take_sublist 20 _).nodup ?_
    have hperm := (jsSort_perm (fun a b => lexLe a.arrivalTime b.arrivalTime)
      ((scheduled.foldl
          (fun m s => if mapHas m s.tripId then m else mapSet m s.tripId s)
          (realtime.foldl (fun m r => mapSet m r.tripId r) [])).map
        (fun p => p.2))).map (fun a => a.tripId)
    rw [hperm.nodup_iff]
    have := values_tripId_eq_keys _ (fun p hp => (hm2vals p hp).1)
    simp only [List.map_map] at this ⊢
    rw [show ((fun a => a.tripId) ∘ fun p : String × Arrival => p.2) =
      (fun a : String × Arrival => a.2.tripId) from rfl] at this ⊢
    rw [this]
    exact hm2keys
  · intro a ha
    rw [mergeArrivals_eq] at ha
    have ha2 := mem_jsSort.mp (List.mem_of_mem_take ha)
    rcases List.mem_map.mp ha2 with ⟨p, hp, rfl⟩
    rcases hm2vals p hp with ⟨hk, hdisj⟩
    rw [← hk] at hdisj
    exact hdisj

/-- Witness for the C2 amended theorem on singleton realtime/scheduled lists
sharing trip RT: the merged list keeps the realtime entry. -/
theorem merge_unique_trips_witness :
    ((mergeArrivals [rtArrC2] [schedArrC2]).map (fun a => a.tripId)).Nodup ∧
    ((rtArrC2.tripId ∈ [rtArrC2].map (fun r => r.tripId) ∧ rtArrC2 ∈ [rtArrC2]) ∨
     (rtArrC2.tripId ∉ [rtArrC2].map (fun r => r.tripId) ∧ rtArrC2 ∈ [schedArrC2])) :=
  ⟨(merge_unique_trips_and_realtime_precedence [rtArrC2] [schedArrC2]).1,
   (merge_unique_trips_and_realtime_precedence [rtArrC2] [schedArrC2]).2
     rtArrC2 (by decide)⟩

/-- C3 (code evaluated at the failing input): with the query fixed at Monday
2024-03-04 07:00 and a Mondays-only service, the result flips with the wall
clock — empty when evaluated on Sunday, non-empty when evaluated on Monday —
because `getScheduledArrivalsAtStop` calls `isServiceRunningToday` without a
date, so the calendar is checked against `new Date()` instead of `atTime`. -/
theorem scheduled_calendar_uses_wall_clock :
    getScheduledArrivalsAtStop stC3 "S1" atTimeC3 wallSunC3 = [] ∧
    getScheduledArrivalsAtStop stC3 "S1" atTimeC3 wallMonC3 = [arrC3] := by
  constructor
  · rfl
  · rfl

/-- C4 (code evaluated at the failing input): a service valid through
2024-12-31 with every weekday flag set is reported not running at noon of
2024-12-31, because `today > service.endDate` compares the full timestamp
against local midnight of the end date; only the midnight instant of the end
date itself passes. -/
theorem end_date_afternoon_rejected :
    isServiceRunningToday calC4 "FD" endDateNoonC4 = false ∧
    isServiceRunningToday calC4 "FD" endDateMidnightC4 = true := by
  constructor
  · rfl
  · rfl

/-- C5 (counterexample): when the request time is inside the realtime window
and the realtime fetch fails, the merged endpoint responds with the 500 error
body — the failure is propagated to the caller, not degraded to schedule-only
results. -/
theorem realtime_failure_propagates_as_500 :
    stopArrivalsHandler stEmpty "S1" tC5 tC5 .failed =
      .error "Internal server error" := by
  rfl

/-- C5 (amended): a failed realtime fetch produces a 500 error response
whenever `requestTime` is within two hours of the wall clock; schedule-only
degradation happens only outside that window, where the realtime call is
skipped altogether. -/
theorem handler_behaviour_on_failed_fetch (st : StaticData) (stopId : String)
    (requestTime now : JSDate) :
    stopArrivalsHandler st stopId requestTime now .failed =
      if ((requestTime.epochSec - now.epochSec) * 1000).natAbs ≤ 7200000 then
        .error "Internal server error"
      else
        .ok (mergeArrivals []
          (getScheduledArrivalsAtStop st stopId requestTime now)) := by
  unfold stopArrivalsHandler
  by_cases h : ((requestTime.epochSec - now.epochSec) * 1000).natAbs ≤ 7200000
  · rw [if_pos h]
  · rw [if_neg h]

set_option maxRecDepth 4000

/-- C6 (counterexample): `getScheduledArrivalsAtStop` applies no truncation
(21 running arrivals are all returned), and the static endpoint truncates to
20 before the calendar filter — in the `stC6b` state it returns nothing even
though the running arrival T20 exists and survives the claimed
filter-then-truncate order. -/
theorem scheduled_no_truncation_and_static_truncates_first :
    20 < (getScheduledArrivalsAtStop stC6 "S1" tC6 tC6).length ∧
    staticStopArrivalsHandler stC6b "S1" tC6 = [] ∧
    getScheduledArrivalsAtStop stC6b "S1" tC6 tC6 = [arrC6T20] := by
  refine ⟨by decide, by rfl, by rfl⟩

/-- C6 (amended): only the static endpoint bounds its output by 20, and it
does so by truncating before the calendar filter; the merged path's
`getScheduledArrivalsAtStop` has no truncation at all (its bound comes later
from `mergeArrivals`). -/
theorem static_endpoint_at_most_twenty (st : StaticData) (stopId : String)
    (now : JSDate) :
    (staticStopArrivalsHandler st stopId now).length ≤ 20 := by
  unfold staticStopArrivalsHandler
  simp only [List.length_map]
  exact le_trans (List.length_filter_le _ _) (List.length_take_le 20 _)

/-- C7 (counterexample): a blank shape-point sequence number and a blank stop
sequence number are coalesced to 0 by `?? 0` before entering the indices, so
the built indices for a blank sequence and for an explicit "0" are identical —
'not provided' is not distinguishable from 0 for these two fields, although
`parseIntSafe` itself returns the absent value. -/
theorem blank_sequence_collapses_to_zero_in_indices :
    parseIntSafe (some "") = none ∧
    buildShapesById [rawShapeSH "44.64" "-63.57" (some "")] =
      buildShapesById [rawShapeSH "44.64" "-63.57" (some "0")] ∧
    buildStopSchedules [rawStopTimeSeq (some "")] =
      buildStopSchedules [rawStopTimeSeq (some "0")] := by
  refine ⟨by decide, by rfl, by rfl⟩

/-- C7 (amended): `parseIntSafe` yields the absent value on blank or
non-numeric input, and the built route and trip records keep that absence for
route type and direction flag (so blank is distinguishable from "0" there);
but the shape-point and stop sequence numbers are defaulted to 0 in the
indices, where the distinction is lost. -/
theorem absent_kept_for_route_type_and_direction (r : RawRoute) (t : RawTrip)
    (hr : r.route_type = some "") (ht : t.direction_id = some "") :
    parseIntSafe none = none ∧
    parseIntSafe (some "bus") = none ∧
    (mkRouteRec r).route_type = none ∧
    mkRouteRec r ≠ mkRouteRec { r with route_type := some "0" } ∧
    (mkTripRec t).direction_id = none ∧
    mkTripRec t ≠ mkTripRec { t with direction_id := some "0" } := by
  have hz : parseIntSafe (some "0") = some 0 := by decide
  have hrt : (mkRouteRec r).route_type = none := by
    show parseIntSafe r.route_type = none
    rw [hr]
    decide
  have htd : (mkTripRec t).direction_id = none := by
    show parseIntSafe t.direction_id = none
    rw [ht]
    decide
  refine ⟨by decide, by decide, hrt, ?_, htd, ?_⟩
  · intro he
    have h2 := congrArg RouteRec.route_type he
    rw [hrt] at h2
    have h3 : (mkRouteRec { r with route_type := some "0" }).route_type = some 0 := hz
    rw [h3] at h2
    cases h2
  · intro he
    have h2 := congrArg TripRec.direction_id he
    rw [htd] at h2
    have h3 : (mkTripRec { t with direction_id := some "0" }).direction_id = some 0 := hz
    rw [h3] at h2
    cases h2

/-- Witness for the C7 amended theorem at a concrete blank route type and
blank direction flag. -/
theorem absent_kept_witness :
    (mkRouteRec { rawRouteR1 with route_type := some "" }).route_type = none ∧
    (mkTripRec { rawTripWD "T1" with direction_id := some "" }).direction_id =
      none :=
  ⟨(absent_kept_for_route_type_and_direction
      { rawRouteR1 with route_type := some "" }
      { rawTripWD "T1" with direction_id := some "" } rfl rfl).2.2.1,
   (absent_kept_for_route_type_and_direction
      { rawRouteR1 with route_type := some "" }
      { rawTripWD "T1" with direction_id := some "" } rfl rfl).2.2.2.2.1⟩

/-- C8 (counterexample): a vehicle-positions entity whose vehicle has neither
a position nor a trip descriptor is not dropped — it is normalized into a
record with null position and trip fields. -/
theorem vehicle_without_position_kept :
    loadVehiclePositions [entityNoPosC8] = [recC8] ∧
    recC8.tripId = none ∧
    recC8.position.latitude = none ∧
    loadVehiclePositions [entityNoPosC8] ≠ [] := by
  refine ⟨by rfl, by rfl, by rfl, by decide⟩

/-- C8 (amended): `loadVehiclePositions` drops exactly the entities with no
`vehicle` field; an entity whose vehicle lacks the position or the trip
identifier is kept, with the missing sub-fields surfacing as nulls in its
record. -/
theorem vehicle_filter_only_on_vehicle_field (feed : List VPEntity) :
    (loadVehiclePositions feed).length =
      (feed.filter (fun e => e.vehicle.isSome)).length ∧
    ∀ e ∈ feed, ∀ v, e.vehicle = some v →
      mkVehicleRecord e v ∈ loadVehiclePositions feed := by
  constructor
  · induction feed with
    | nil => rfl
    | cons e es ih =>
      cases he : e.vehicle with
      | none =>
        simpa [loadVehiclePositions, List.filterMap_cons, he,
          List.filter_cons] using ih
      | some v =>
        simpa [loadVehiclePositions, List.filterMap_cons, he,
          List.filter_cons] using ih
  · intro e he v hv
    refine List.mem_filterMap.mpr ⟨e, he, ?_⟩
    rw [hv]
    rfl

/-- Witness for the C8 amended theorem on the position-less entity. -/
theorem vehicle_filter_witness :
    (loadVehiclePositions [entityNoPosC8]).length =
      ([entityNoPosC8].filter (fun e => e.vehicle.isSome)).length ∧
    mkVehicleRecord entityNoPosC8
      { trip := none, position := none, currentStopSequence := none,
        stopId := none, congestionLevel := none, timestamp := none,
        vehicle := none } ∈ loadVehiclePositions [entityNoPosC8] :=
  ⟨(vehicle_filter_only_on_vehicle_field [entityNoPosC8]).1,
   (vehicle_filter_only_on_vehicle_field [entityNoPosC8]).2 entityNoPosC8
     (by decide) _ rfl⟩

theorem buildShapesById_values_sorted (rows : List RawShape) (k : String)
    (pts : List ShapePoint) (h : (k, pts) ∈ buildShapesById rows) :
    pts.Pairwise
      (fun a b => decide (a.shape_pt_sequence ≤ b.shape_pt_sequence) = true) := by
  unfold buildShapesById at h
  rcases List.mem_map.mp h with ⟨q, _, he⟩
  rcases Prod.mk.injEq _ _ _ _ ▸ he with ⟨_, hsort⟩
  rw [← hsort]
  refine jsSort_pairwise _ ?_ ?_ q.2
  · intro a b c h1 h2
    rw [decide_eq_true_eq] at h1 h2 ⊢
    exact le_trans h1 h2
  · intro a b
    rcases Int.le_total a.shape_pt_sequence b.shape_pt_sequence with h | h
    · exact Or.inl (decide_eq_true h)
    · exact Or.inr (decide_eq_true h)

/-- C9 (amended): for every shape, `shapePolyline` returns its built points in
non-decreasing sequence-number order; the order is strictly ascending exactly
when the returned points carry pairwise-distinct sequence numbers, which the
builder does not enforce (duplicate or blank-coalesced sequence numbers
survive). -/
theorem shape_points_ascending (rows : List RawShape) (shapeId : String) :
    (staticShapeHandler (buildShapesById rows) shapeId).Pairwise
      (fun a b => a.shape_pt_sequence ≤ b.shape_pt_sequence) ∧
    (((staticShapeHandler (buildShapesById rows) shapeId).map
        (fun p => p.shape_pt_sequence)).Nodup →
      (staticShapeHandler (buildShapesById rows) shapeId).Pairwise
        (fun a b => a.shape_pt_sequence < b.shape_pt_sequence)) := by
  have hle : (staticShapeHandler (buildShapesById rows) shapeId).Pairwise
      (fun a b => a.shape_pt_sequence ≤ b.shape_pt_sequence) := by
    unfold staticShapeHandler mapGet
    cases hfind : (buildShapesById rows).find? (fun p => p.1 = shapeId) with
    | none => simp
    | some p =>
      simp only [Option.map_some', Option.getD_some]
      have hmem := List.mem_of_find?_eq_some hfind
      have hsorted := buildShapesById_values_sorted rows p.1 p.2
        (by rwa [Prod.mk.eta])
      exact hsorted.imp (fun h => of_decide_eq_true h)
  refine ⟨hle, fun hnd => ?_⟩
  have hne : (staticShapeHandler (buildShapesById rows) shapeId).Pairwise
      (fun a b => a.shape_pt_sequence ≠ b.shape_pt_sequence) :=
    List.pairwise_map.mp hnd
  exact (hle.and hne).imp (fun h => lt_of_le_of_ne h.1 h.2)

/-- Witness for the C9 amended theorem on two points with distinct sequence
numbers 1 and 2. -/
theorem shape_points_ascending_witness :
    (staticShapeHandler
        (buildShapesById
          [rawShapeSH "44.64" "-63.57" (some "1"),
           rawShapeSH "44.65" "-63.58" (some "2")]) "SH").Pairwise
      (fun a b => a.shape_pt_sequence < b.shape_pt_sequence) :=
  (shape_points_ascending
    [rawShapeSH "44.64" "-63.57" (some "1"),
     rawShapeSH "44.65" "-63.58" (some "2")] "SH").2 (by decide)

/-- C9 (counterexample): two rows of the same shape with the same sequence
number 5 both survive into the built polyline, so the returned points of a
shape with two points share a sequence number and the order is not strictly
ascending. -/
theorem duplicate_sequence_number_survives :
    staticShapeHandler (buildShapesById rowsC9) "SH" = [pC9a, pC9b] ∧
    pC9a.shape_pt_sequence = pC9b.shape_pt_sequence ∧
    pC9a ≠ pC9b := by
  refine ⟨by rfl, by rfl, by decide⟩


theorem processStopTime_good (st : StaticData) (stopId : String) (now : JSDate)
    (tid : String) (lbl : Option String) (m : List (String × Arrival))
    (stu : StopTimeUpdate) :
    ∀ p ∈ processStopTime st stopId now tid lbl m stu,
      p ∈ m ∨
      (p.2.tripId = tid ∧
        (mapGet st.staticTripsById tid = none →
          p.2.routeId = none ∧ p.2.routeShortName = none ∧
          p.2.routeLongName = none ∧ p.2.headsign = none)) := by
  intro p hp
  unfold processStopTime at hp
  split at hp
  · exact Or.inl hp
  rcases hx : (match stu.arrival.bind (fun e => e.time) with
      | some t => some t
      | none => stu.departure.bind (fun e => e.time)) with _ | ts
  · rw [hx] at hp
    dsimp only [] at hp
    exact Or.inl hp
  · rw [hx] at hp
    dsimp only [] at hp
    split at hp
    · exact Or.inl hp
    split at hp
    · exact Or.inl hp
    split at hp
    · rcases mem_of_mem_mapSet hp with hp' | hpe
      · exact Or.inl hp'
      · subst hpe
        refine Or.inr ⟨rfl, fun hnone => ?_⟩
        simp [hnone]
    · split at hp
      · rcases mem_of_mem_mapSet hp with hp' | hpe
        · exact Or.inl hp'
        · subst hpe
          refine Or.inr ⟨rfl, fun hnone => ?_⟩
          simp [hnone]
      · exact Or.inl hp

theorem processEntity_good (st : StaticData) (stopId : String) (now : JSDate)
    (m : List (String × Arrival)) (entity : TUEntity) :
    ∀ p ∈ processEntity st stopId now m entity,
      p ∈ m ∨
      (mapGet st.staticTripsById p.2.tripId = none →
        p.2.routeId = none ∧ p.2.routeShortName = none ∧
        p.2.routeLongName = none ∧ p.2.headsign = none) := by
  intro p hp
  unfold processEntity at hp
  cases htu : entity.tripUpdate with
  | none =>
    rw [htu] at hp
    exact Or.inl hp
  | some tu =>
    rw [htu] at hp
    dsimp only [] at hp
    cases htid : tu.trip.bind (fun t => t.tripId) with
    | none =>
      rw [htid] at hp
      exact Or.inl hp
    | some tid =>
      rw [htid] at hp
      dsimp only [] at hp
      by_cases he : tid = ""
      · rw [if_pos he] at hp
        exact Or.inl hp
      · rw [if_neg he] at hp
        refine foldl_pres_mem
          (fun (q : String × Arrival) => q ∈ m ∨
            (mapGet st.staticTripsById q.2.tripId = none →
              q.2.routeId = none ∧ q.2.routeShortName = none ∧
              q.2.routeLongName = none ∧ q.2.headsign = none))
          (tu.stopTimeUpdate.getD []) _ ?_ m (fun q hq => Or.inl hq) p hp
        intro m' stu _ q hq
        rcases processStopTime_good st stopId now tid
          (tu.vehicle.bind (fun v => v.label)) m' stu q hq with hq' | ⟨hqt, hgood⟩
        · exact Or.inl hq'
        · refine Or.inr (Or.inr ?_)
          intro hnone
          rw [hqt] at hnone
          exact hgood hnone

theorem getBuses_unknown_trip_null_fields (st : StaticData)
    (feed : List TUEntity) (stopId : String) (now : JSDate) :
    ∀ a ∈ getBusesArrivingAtStop st feed stopId now,
      mapGet st.staticTripsById a.tripId = none →
        a.routeId = none ∧ a.routeShortName = none ∧
        a.routeLongName = none ∧ a.headsign = none := by
  intro a ha
  unfold getBusesArrivingAtStop at ha
  have ha2 := mem_jsSort.mp (List.mem_of_mem_take ha)
  rcases List.mem_map.mp ha2 with ⟨p, hp, rfl⟩
  have key : ∀ q ∈ feed.foldl (processEntity st stopId now) [],
      mapGet st.staticTripsById q.2.tripId = none →
        q.2.routeId = none ∧ q.2.routeShortName = none ∧
        q.2.routeLongName = none ∧ q.2.headsign = none := by
    refine foldl_pres_mem
      (fun (q : String × Arrival) =>
        mapGet st.staticTripsById q.2.tripId = none →
        q.2.routeId = none ∧ q.2.routeShortName = none ∧
        q.2.routeLongName = none ∧ q.2.headsign = none)
      feed _ ?_ [] (by simp)
    intro m e _ q hq
    exact processEntity_good st stopId now m e q hq
  exact key p hp

theorem scheduled_only_known_trips (st : StaticData) (stopId : String)
    (time now : JSDate) :
    ∀ a ∈ getScheduledArrivalsAtStop st stopId time now,
      (mapGet st.staticTripsById a.tripId).isSome = true := by
  intro a ha
  unfold getScheduledArrivalsAtStop at ha
  rcases List.mem_map.mp ha with ⟨entry, hentry, rfl⟩
  have hrun := (List.mem_filter.mp hentry).2
  unfold entryServiceRunning at hrun
  have htrip : (scheduledArrivalOfEntry st entry).tripId = entry.tripId := rfl
  rw [htrip]
  cases hmg : mapGet st.staticTripsById entry.tripId with
  | none => rw [hmg] at hrun; cases hrun
  | some trip => rfl

/-- C10: the two sources treat unknown trip identifiers differently — the
scheduled path only ever returns arrivals whose trip identifier is in the
static trip index (unknown entries are dropped by the `trip &&` filter), while
the realtime path keeps arrivals for unknown trips, publishing them with null
routeId, routeShortName, routeLongName and headsign; the concrete `stC10`
state shows both behaviours side by side. -/
theorem unknown_trip_realtime_kept_scheduled_dropped :
    (∀ (st : StaticData) (stopId : String) (time now : JSDate),
      ∀ a ∈ getScheduledArrivalsAtStop st stopId time now,
        (mapGet st.staticTripsById a.tripId).isSome = true) ∧
    (∀ (st : StaticData) (feed : List TUEntity) (stopId : String) (now : JSDate),
      ∀ a ∈ getBusesArrivingAtStop st feed stopId now,
        mapGet st.staticTripsById a.tripId = none →
          a.routeId = none ∧ a.routeShortName = none ∧
          a.routeLongName = none ∧ a.headsign = none) ∧
    getBusesArrivingAtStop stC10 feedC10 "S1" nowC10 = [arrC10] ∧
    mapGet stC10.staticTripsById "TX" = none ∧
    getScheduledArrivalsAtStop stC10 "S1" nowC10 nowC10 = [] :=
  ⟨scheduled_only_known_trips, getBuses_unknown_trip_null_fields,
   rfl, rfl, rfl⟩

/-- Witness for C10, instantiating both universal parts at the concrete
`stC10` state and the unknown-trip arrival. -/
theorem unknown_trip_witness :
    (mapGet stC1.staticTripsById arrC1nine.tripId).isSome = true ∧
    (arrC10.routeId = none ∧ arrC10.routeShortName = none ∧
      arrC10.routeLongName = none ∧ arrC10.headsign = none) :=
  ⟨unknown_trip_realtime_kept_scheduled_dropped.1 stC1 "S1" reqC1 nowC1
      arrC1nine (by decide),
   unknown_trip_realtime_kept_scheduled_dropped.2.1 stC10 feedC10 "S1" nowC10
      arrC10 (by decide) (by decide)⟩
